import Mathlib

/-!
Verification of the plox tree-walking interpreter (src/plox): a shallow
embedding of the token model, scanner, recursive-descent parser, environment
chain and evaluator, together with theorems settling the specification claims.

Machine floats of the host are modelled as exact rationals (`ℚ`); every
numeric value exercised by the theorems below is small and integral, where
float and rational arithmetic agree.
-/

namespace Plox

/-- Token categories, from `src/plox/core/token.py` (`class TokenType`). -/
inductive TokenType where
  | LEFT_PAREN | RIGHT_PAREN | LEFT_BRACE | RIGHT_BRACE
  | COMMA | DOT | MINUS | PLUS | SEMICOLON | SLASH | STAR | COLON | QUESTION | MOD
  | BANG | BANG_EQUAL | EQUAL | EQUAL_EQUAL
  | GREATER | GREATER_EQUAL | LESS | LESS_EQUAL
  | MINUS_MINUS | PLUS_PLUS
  | IDENTIFIER | STRING | NUMBER
  | AND | CLASS | ELSE | FALSE | FUN | FOR | IF | NIL | OR | PRINT | RETURN
  | SUPER | THIS | TRUE | VAR | WHILE | EOF
  deriving DecidableEq, Repr

/-- A token's decoded literal payload (`float | str` in the source). -/
inductive LitVal where
  | num (q : ℚ)
  | str (s : String)
  deriving DecidableEq, Repr

/-- The Token record of `src/plox/core/token.py`: category, exact source
substring, optional decoded literal (`None` when absent) and source line. -/
structure Token where
  type : TokenType
  lexeme : String
  literal : Option LitVal
  line : Nat
  deriving DecidableEq, Repr

/-- Python `==` on `Optional[float | str]` literal payloads: `None == None` is
true, heterogeneous comparisons are false, same-type comparisons are native. -/
def pyLitEq : Option LitVal → Option LitVal → Bool
  | none, none => true
  | some (.num a), some (.num b) => a == b
  | some (.str a), some (.str b) => a == b
  | _, _ => false

/-- Python `!=` on literal payloads is the negation of `==` for these builtin
types. -/
def pyLitNe (a b : Option LitVal) : Bool := !pyLitEq a b

/-- `Token.__eq__` from `src/plox/core/token.py`. The `isinstance` guard is
vacuous here (both arguments are tokens). Note the source's third conjunct
compares `self.literal` with `self.literal` (the same object), and the `line`
field is not compared at all. -/
def tokEq (t u : Token) : Bool :=
  t.type == u.type && t.lexeme == u.lexeme && pyLitEq t.literal t.literal

/-- `Token.__ne__` from `src/plox/core/token.py`. The source's first conjunct
is `self._type != self.lexeme`, which compares a `TokenType` with a `str` and
is therefore always true in Python; it is embedded as the constant `true`. -/
def tokNe (t u : Token) : Bool :=
  true && t.lexeme != u.lexeme && pyLitNe t.literal u.literal

/-- The value carried by a `Literal` AST node: `False`/`True`/`None`, a float,
or a string (`src/plox/ast/expr.py`, `Literal.value`). -/
inductive LoxLit where
  | nil
  | b (x : Bool)
  | num (q : ℚ)
  | str (s : String)
  deriving DecidableEq, Repr

/-- `Literal(self.previous().literal)` in the parser wraps a token's payload;
a missing payload is Python `None`, i.e. the nil literal. -/
def litOfToken : Option LitVal → LoxLit
  | none => .nil
  | some (.num q) => .num q
  | some (.str s) => .str s

/-- Expression AST nodes, from `src/plox/ast/expr.py` (one constructor per
dataclass, keeping the source class names). -/
inductive Expr where
  | Literal (value : LoxLit)
  | Grouping (expr : Expr)
  | Unary (operator : Token) (right : Expr)
  | Binary (left : Expr) (operator : Token) (right : Expr)
  | Logical (left : Expr) (operator : Token) (right : Expr)
  | Conditional (condition : Expr) (operator : Token) (left : Expr) (right : Expr)
  | Variable (name : Token)
  | Assign (name : Token) (value : Expr)
  deriving DecidableEq, Repr

/-- Statement AST nodes, from `src/plox/ast/stmt.py`. `Block` holds the list
the parser actually builds: `block()` appends `self.declaration()` results,
which are `None` after a synchronized parse error, so the elements are
optional. `Var.initializer` is `None` when absent. -/
inductive Stmt where
  | IfStmt (condition : Expr) (then_branch : Stmt) (else_branch : Option Stmt)
  | Block (stmts : List (Option Stmt))
  | Var (name : Token) (initializer : Option Expr)
  | ExpressionStmt (expr : Expr)
  | Print (expr : Expr)
  deriving Repr

/-- The parse-time invalid-assignment error (`src/plox/runtime/errors.py`,
`class InvalidAssignment`): message and the offending `=` token. -/
structure InvalidAssignment where
  message : String
  equals : Token
  deriving DecidableEq, Repr

/-- `Expr.make_assignment` (`src/plox/ast/expr.py`): only `Variable` nodes
produce an `Assign`; every other variant raises `InvalidAssignment`. -/
def makeAssignment (e : Expr) (equals : Token) (value : Expr) :
    Except InvalidAssignment Expr :=
  match e with
  | .Variable name => .ok (.Assign name value)
  | _ => .error ⟨"Invalid Assignment Target", equals⟩

/-- Runtime values. Python stores arbitrary objects in the environment; the
constructors cover `None`, booleans, floats, strings, and — because
`visit_Assign` passes the AST node `expr.value` to `Environment.assign` —
expression objects. -/
inductive PyVal where
  | nil
  | b (x : Bool)
  | num (q : ℚ)
  | str (s : String)
  | exprV (e : Expr)
  deriving DecidableEq, Repr

/-- Conversion of a literal AST payload to a runtime value
(`visit_Literal` returns `expr.value` unchanged). -/
def litVal : LoxLit → PyVal
  | .nil => .nil
  | .b x => .b x
  | .num q => .num q
  | .str s => .str s

/-- Errors raised at run time (`src/plox/runtime/errors.py`):
`LoxRunTimeError` and `UndefinedVariable`, each carrying the offending token
and a message. `UndefinedVariable` is not a subclass of `LoxRunTimeError`. -/
inductive RErr where
  | loxRunTime (token : Token) (message : String)
  | undefinedVariable (token : Token) (message : String)
  deriving DecidableEq, Repr

/-- Python dict update `m[k] = v`: overwrite the existing entry for `k`, else
append a fresh one. -/
def dictSet (m : List (String × PyVal)) (k : String) (v : PyVal) :
    List (String × PyVal) :=
  match m with
  | [] => [(k, v)]
  | (k', v') :: rest => if k' = k then (k, v) :: rest else (k', v') :: dictSet rest k v

/-- Python dict lookup returning the stored value when present. -/
def dictFind (m : List (String × PyVal)) (k : String) : Option PyVal :=
  match m with
  | [] => none
  | (k', v') :: rest => if k' = k then some v' else dictFind rest k

/-- The environment chain (`src/plox/runtime/environment.py`): a dict of
values plus an optional enclosing environment. `top` is an environment built
with `enclosing=None`; `inner` carries its enclosing scope. -/
inductive Env where
  | top (values : List (String × PyVal))
  | inner (values : List (String × PyVal)) (enclosing : Env)
  deriving DecidableEq, Repr

/-- The current scope's dict (`self.values`). -/
def Env.values : Env → List (String × PyVal)
  | .top vals => vals
  | .inner vals _ => vals

/-- The optional enclosing scope (`self.enclosing`). -/
def Env.enclosingOpt : Env → Option Env
  | .top _ => none
  | .inner _ e => some e

/-- `Environment.define`: insert or overwrite in the current scope only. -/
def Env.define : Env → String → PyVal → Env
  | .top vals, name, v => .top (dictSet vals name v)
  | .inner vals e, name, v => .inner (dictSet vals name v) e

/-- `Environment.get`: local lookup by `name.lexeme`, delegation to the
enclosing environment on a miss, `UndefinedVariable` when the whole chain
misses. -/
def Env.get : Env → Token → Except RErr PyVal
  | .top vals, name =>
    match dictFind vals name.lexeme with
    | some v => .ok v
    | none => .error (.undefinedVariable name "Undefined variable")
  | .inner vals e, name =>
    match dictFind vals name.lexeme with
    | some v => .ok v
    | none => e.get name

/-- `Environment.assign`: overwrite a locally-bound name, delegate to the
enclosing environment otherwise, and raise `UndefinedVariable` when the whole
chain misses; it never inserts a fresh binding. -/
def Env.assign : Env → Token → PyVal → Except RErr Env
  | .top vals, name, v =>
    if (dictFind vals name.lexeme).isSome then
      .ok (.top (dictSet vals name.lexeme v))
    else
      .error (.undefinedVariable name "Undefined variable")
  | .inner vals e, name, v =>
    if (dictFind vals name.lexeme).isSome then
      .ok (.inner (dictSet vals name.lexeme v) e)
    else
      (e.assign name v).map (fun e' => .inner vals e')

/-- Number of scopes in the chain. -/
def Env.depth : Env → Nat
  | .top _ => 1
  | .inner _ e => e.depth + 1

/-- Frame-wise bound names, innermost first: the shape of the chain. -/
def Env.doms : Env → List (List String)
  | .top vals => [vals.map Prod.fst]
  | .inner vals e => vals.map Prod.fst :: e.doms

/-- Whether `name` is bound somewhere in the chain. -/
def Env.boundChain : Env → String → Bool
  | .top vals, n => (dictFind vals n).isSome
  | .inner vals e, n => (dictFind vals n).isSome || e.boundChain n

/-- `Interpreter.is_truthy`: `None` and `False` are falsy, every other value
(including numeric zero) is truthy. -/
def isTruthy : PyVal → Bool
  | .nil => false
  | .b x => x
  | _ => true

/-- The guard `type(a) == None` used by `Interpreter.is_equal`
(`src/plox/core/interpreter.py`): `type(a)` is a class object and never equals
`None`, so the comparison is always false, for every argument. -/
def typeIsNone (_ : PyVal) : Bool := false

/-- `Interpreter.is_equal`: the two `type(.) == None` guards first (both
vacuous), then native same-type comparison for strings, floats and booleans,
and `False` for everything else. -/
def isEqual (a b : PyVal) : Bool :=
  if typeIsNone a && typeIsNone b then true
  else if typeIsNone a then false
  else
    match a, b with
    | .str x, .str y => x == y
    | .num x, .num y => x == y
    | .b x, .b y => x == y
    | _, _ => false

/-- `Interpreter.check_num_operand`: the operand must be a float. The number
is returned for the caller's convenience. -/
def checkNumOperand (operator : Token) (operand : PyVal) : Except RErr ℚ :=
  match operand with
  | .num a => .ok a
  | _ => .error (.loxRunTime operator "Operand must be a number.")

/-- `Interpreter.check_num_operands`: both operands must be floats. The
numbers are returned for the caller's convenience. -/
def checkNumOperands (operator : Token) (left right : PyVal) :
    Except RErr (ℚ × ℚ) :=
  match left, right with
  | .num a, .num b => .ok (a, b)
  | _, _ => .error (.loxRunTime operator "Operands must be numbers.")

/-- Python's float `%`: `a - b * floor(a / b)` for a non-zero divisor. -/
def pymod (a b : ℚ) : ℚ := a - b * ⌊a / b⌋

/-- The operator dispatch of `Interpreter.visit_Binary` after both operands
are evaluated. The source's `match` has no default case, so Python returns
`None` for any other operator category. -/
def binaryOp (operator : Token) (left right : PyVal) : Except RErr PyVal :=
  match operator.type with
  | .BANG_EQUAL => .ok (.b (!isEqual left right))
  | .EQUAL_EQUAL => .ok (.b (isEqual left right))
  | .GREATER => do
    let (a, b) ← checkNumOperands operator left right
    .ok (.b (decide (a > b)))
  | .GREATER_EQUAL => do
    let (a, b) ← checkNumOperands operator left right
    .ok (.b (decide (a ≥ b)))
  | .LESS => do
    let (a, b) ← checkNumOperands operator left right
    .ok (.b (decide (a < b)))
  | .LESS_EQUAL => do
    let (a, b) ← checkNumOperands operator left right
    .ok (.b (decide (a ≤ b)))
  | .MINUS => do
    let (a, b) ← checkNumOperands operator left right
    .ok (.num (a - b))
  | .PLUS =>
    match left, right with
    | .num a, .num b => .ok (.num (a + b))
    | .str x, .str y => .ok (.str (x ++ y))
    | _, _ => .error (.loxRunTime operator "Operands must be two numbers or two strings.")
  | .SLASH => do
    let (a, b) ← checkNumOperands operator left right
    if b = 0 then .error (.loxRunTime operator "Division by zero.")
    else .ok (.num (a / b))
  | .MOD => do
    let (a, b) ← checkNumOperands operator left right
    if b = 0 then .error (.loxRunTime operator "Division by zero.")
    else .ok (.num (pymod a b))
  | .STAR => do
    let (a, b) ← checkNumOperands operator left right
    .ok (.num (a * b))
  | _ => .ok .nil

/-- The operator dispatch of `Interpreter.visit_Unary` after the operand is
evaluated; the trailing `return` yields `None` for any other category. -/
def unaryOp (operator : Token) (right : PyVal) : Except RErr PyVal :=
  match operator.type with
  | .BANG => .ok (.b (!isTruthy right))
  | .MINUS => do
    let a ← checkNumOperand operator right
    .ok (.num (-a))
  | _ => .ok .nil

/-- Expression evaluation (`Interpreter.evaluate` dispatching through the
visitor methods). The environment is threaded explicitly; an error carries
the environment as mutated up to the raise point, since Python exceptions do
not roll back `assign` effects. In `visit_Assign` the source evaluates
`expr.value` once and then calls `self.environment.assign(expr.name,
expr.value)` — passing the AST node `expr.value`, not the computed value —
while returning the computed value. -/
def eval : Expr → Env → Except (RErr × Env) (PyVal × Env)
  | .Literal v, env => .ok (litVal v, env)
  | .Grouping e, env => eval e env
  | .Variable name, env =>
    match env.get name with
    | .ok v => .ok (v, env)
    | .error err => .error (err, env)
  | .Assign name value, env =>
    match eval value env with
    | .error e => .error e
    | .ok (v, env1) =>
      match env1.assign name (.exprV value) with
      | .ok env2 => .ok (v, env2)
      | .error err => .error (err, env1)
  | .Conditional c _op l r, env =>
    match eval c env with
    | .error e => .error e
    | .ok (cv, env1) => if isTruthy cv then eval l env1 else eval r env1
  | .Logical l op r, env =>
    match eval l env with
    | .error e => .error e
    | .ok (lv, env1) =>
      if op.type = .OR then
        if isTruthy lv then .ok (lv, env1) else eval r env1
      else
        if !isTruthy lv then .ok (lv, env1) else eval r env1
  | .Unary op r, env =>
    match eval r env with
    | .error e => .error e
    | .ok (rv, env1) =>
      match unaryOp op rv with
      | .ok v => .ok (v, env1)
      | .error err => .error (err, env1)
  | .Binary l op r, env =>
    match eval l env with
    | .error e => .error e
    | .ok (lv, env1) =>
      match eval r env1 with
      | .error e => .error e
      | .ok (rv, env2) =>
        match binaryOp op lv rv with
        | .ok v => .ok (v, env2)
        | .error err => .error (err, env2)

/-- Execution state on the error path: the raised error, the environment and
the output emitted so far. -/
abbrev ExecErr := RErr × Env × List PyVal

/-- Execution result: the environment and emitted output. Output is the list
of values passed to `print`, in order. -/
abbrev ExecOk := Env × List PyVal

/-- Leave the scope entered for a block: the interpreter restores
`self.environment` to the enclosing environment of the block's child scope. -/
def popScope : Env → Env
  | .top vals => .top vals
  | .inner _ e => e

/-- Statement execution (`Interpreter.execute` dispatching through the
visitor methods), with fuel bounding the block/if nesting depth; callers pass
fuel exceeding the program's nesting, so the fuel-exhaustion branch is never
reached.

`visit_Block` and `visit_IfStmt` are absent from `src/plox/core/interpreter.py`
(only their abstract declarations exist in `src/plox/ast/stmt.py`).
Modelled from the spec: a block "creates a new child environment enclosing
the current one, executes its statements with that child as current, and
restores the prior environment afterward unconditionally (including when a
runtime error propagates out of the block)"; an if statement "evaluates the
condition's truthiness and executes exactly one branch (or neither, if false
and no else)". A `none` element of a block (a declaration dropped by parser
synchronization) executes nothing, exactly as `interpret` skips `None`. -/
def execFuel : Nat → Stmt → Env → List PyVal → Except ExecErr ExecOk
  | 0, _, env, out =>
    .error (.loxRunTime ⟨.EOF, "", none, 0⟩ "fuel exhausted", env, out)
  | fuel + 1, stmt, env, out =>
    match stmt with
    | .ExpressionStmt e =>
      match eval e env with
      | .ok (_, env1) => .ok (env1, out)
      | .error (err, env1) => .error (err, env1, out)
    | .Print e =>
      match eval e env with
      | .ok (v, env1) => .ok (env1, out ++ [v])
      | .error (err, env1) => .error (err, env1, out)
    | .Var name init =>
      match init with
      | none => .ok (env.define name.lexeme .nil, out)
      | some e =>
        match eval e env with
        | .ok (v, env1) => .ok (env1.define name.lexeme v, out)
        | .error (err, env1) => .error (err, env1, out)
    | .Block stmts =>
      match stmts.foldlM
          (fun (acc : ExecOk) os =>
            (match os with
              | none => .ok acc
              | some s => execFuel fuel s acc.1 acc.2 : Except ExecErr ExecOk))
          ((Env.inner [] env : Env), out) with
      | .ok (env1, out1) => .ok (popScope env1, out1)
      | .error (err, env1, out1) => .error (err, popScope env1, out1)
    | .IfStmt c t e =>
      match eval c env with
      | .error (err, env1) => .error (err, env1, out)
      | .ok (cv, env1) =>
        if isTruthy cv then execFuel fuel t env1 out
        else
          match e with
          | some s => execFuel fuel s env1 out
          | none => .ok (env1, out)

/-- The block body as `execFuel` runs it: the statements folded over the
child environment, skipping dropped (`none`) declarations. -/
def execBlockBody (fuel : Nat) (stmts : List (Option Stmt)) (env : Env)
    (out : List PyVal) : Except ExecErr ExecOk :=
  stmts.foldlM
    (fun (acc : ExecOk) os =>
      match os with
      | none => .ok acc
      | some s => execFuel fuel s acc.1 acc.2)
    (env, out)

/-- `Interpreter.interpret`: execute each statement in order, skipping `None`
entries; a `LoxRunTimeError` aborts the remaining statements and is caught
(and printed), while an `UndefinedVariable` escapes the method. A caught
error is reported in the `Option RErr` component. -/
def interpret (fuel : Nat) :
    List (Option Stmt) → Env → List PyVal →
    Except ExecErr (Env × List PyVal × Option RErr)
  | [], env, out => .ok (env, out, none)
  | none :: rest, env, out => interpret fuel rest env out
  | some s :: rest, env, out =>
    match execFuel fuel s env out with
    | .ok (env1, out1) => interpret fuel rest env1 out1
    | .error (.loxRunTime t m, env1, out1) => .ok (env1, out1, some (.loxRunTime t m))
    | .error e => .error e

/-- A scanning error (`src/plox/core/scanner.py`, `class ScanningError`):
line number and message (the optional value is never supplied by the
scanner's raise sites). -/
structure ScanErr where
  line : Nat
  message : String
  deriving DecidableEq, Repr

/-- The slice `source[a:b]` of the character list. -/
def listSlice (s : List Char) (a b : Nat) : List Char := (s.drop a).take (b - a)

/-- `source[i]`; call sites guarantee `i` is in range. -/
def strGet (s : List Char) (i : Nat) : Char := s.getD i '\x00'

/-- `Scanner.is_end`: `current >= len(source)`. -/
def isEndS (src : List Char) (i : Nat) : Bool := src.length ≤ i

/-- `Scanner.peek`: the current character, or `None` at the end. -/
def peekS (src : List Char) (i : Nat) : Option Char :=
  if isEndS src i then none else some (strGet src i)

/-- `Scanner.peek_next`: the next character, or `"\0"` past the end. -/
def peekNextC (src : List Char) (i : Nat) : Char :=
  if src.length ≤ i + 1 then '\x00' else strGet src (i + 1)

/-- `Scanner.match`: consume the expected second character of a two-character
token when it is next. -/
def matchS (src : List Char) (i : Nat) (expected : Char) : Bool × Nat :=
  if isEndS src i then (false, i)
  else if strGet src i ≠ expected then (false, i)
  else (true, i + 1)

/-- Membership in `self.numbers = "0123456789"`. -/
def isDigitChar (c : Char) : Bool := "0123456789".contains c

/-- Membership in `self.alpha = ascii_letters + "_"`. -/
def isAlphaChar (c : Char) : Bool :=
  "abcdefghijklmnopqrstuvwxyzABCDEFGHIJKLMNOPQRSTUVWXYZ_".contains c

/-- `Scanner.is_digit` on an optional peeked character (`None` is not a
digit). -/
def isDigitOpt : Option Char → Bool
  | none => false
  | some c => isDigitChar c

/-- `Scanner.is_alpha_num` on an optional peeked character. -/
def isAlphaNumOpt : Option Char → Bool
  | none => false
  | some c => isAlphaChar c || isDigitChar c

/-- The scanner's keyword table (`self.keywords`). -/
def keywords : List (String × TokenType) :=
  [("and", .AND), ("class", .CLASS), ("else", .ELSE), ("false", .FALSE),
   ("for", .FOR), ("fun", .FUN), ("if", .IF), ("nil", .NIL), ("or", .OR),
   ("print", .PRINT), ("return", .RETURN), ("super", .SUPER), ("this", .THIS),
   ("true", .TRUE), ("var", .VAR), ("while", .WHILE)]

/-- Value of a digit run. -/
def digitsToNat (cs : List Char) : Nat :=
  cs.foldl (fun n c => n * 10 + (c.toNat - '0'.toNat)) 0

/-- `float(lex)` for a NUMBER lexeme (digit run, optionally `.` + digit run),
decoded exactly as a rational. -/
def lexToRat (cs : List Char) : ℚ :=
  match cs.splitOn '.' with
  | [intPart, fracPart] =>
    (digitsToNat intPart : ℚ) +
      (digitsToNat fracPart : ℚ) / ((10 : ℚ) ^ fracPart.length)
  | _ => (digitsToNat cs : ℚ)

/-- A token whose lexeme is `source[start:current]` and whose literal is
absent (`Scanner.add_token` with the default literal). -/
def mkTok (ty : TokenType) (src : List Char) (start cur line : Nat) : Token :=
  ⟨ty, String.mk (listSlice src start cur), none, line⟩

/-- The body loop of `Scanner.make_string`: skip forward (counting newlines)
until the closing quote or the end of input. -/
def stringLoop : Nat → List Char → Nat → Nat → Nat × Nat
  | 0, _, i, line => (i, line)
  | fuel + 1, src, i, line =>
    match peekS src i with
    | none => (i, line)
    | some c =>
      if c = '"' then (i, line)
      else stringLoop fuel src (i + 1) (if c = '\n' then line + 1 else line)

/-- `Scanner.make_string`: scan to the closing quote (multi-line strings
increment the line counter), failing at end-of-input; the decoded literal
excludes the surrounding quotes while the lexeme keeps them. -/
def makeString (fuel : Nat) (src : List Char) (start i line : Nat) :
    Except ScanErr (Token × Nat × Nat) :=
  match stringLoop fuel src i line with
  | (i1, line1) =>
    if isEndS src i1 then
      .error ⟨line1, "ScanningError: Unterminated string"⟩
    else
      let i2 := i1 + 1
      .ok (⟨.STRING, String.mk (listSlice src start i2),
             some (.str (String.mk (listSlice src (start + 1) (i2 - 1)))), line1⟩,
           i2, line1)

/-- A digit run: `while self.is_digit(self.peek()): self.advance()`. -/
def digitsLoop : Nat → List Char → Nat → Nat
  | 0, _, i => i
  | fuel + 1, src, i =>
    if isDigitOpt (peekS src i) then digitsLoop fuel src (i + 1) else i

/-- `Scanner.make_number`: a digit run, then a decimal point only when
followed by a digit, then the fractional digit run; decoded via `float`. -/
def makeNumber (fuel : Nat) (src : List Char) (start i line : Nat) :
    Token × Nat :=
  let i1 := digitsLoop fuel src i
  let i2 :=
    if peekS src i1 = some '.' && isDigitChar (peekNextC src i1) then
      digitsLoop fuel src (i1 + 1)
    else i1
  let lex := listSlice src start i2
  (⟨.NUMBER, String.mk lex, some (.num (lexToRat lex)), line⟩, i2)

/-- An identifier run: alphanumeric/underscore continuation. -/
def identLoop : Nat → List Char → Nat → Nat
  | 0, _, i => i
  | fuel + 1, src, i =>
    if isAlphaNumOpt (peekS src i) then identLoop fuel src (i + 1) else i

/-- `Scanner.make_identifier`: extend the lexeme, then look it up in the
keyword table; unmatched text becomes an `IDENTIFIER`. -/
def makeIdentifier (fuel : Nat) (src : List Char) (start i line : Nat) :
    Token × Nat :=
  let i1 := identLoop fuel src i
  let text := String.mk (listSlice src start i1)
  match keywords.lookup text with
  | some kw => (mkTok kw src start i1 line, i1)
  | none => (mkTok .IDENTIFIER src start i1 line, i1)

/-- `Scanner.make_comment`: skip to the next newline or the end of input. -/
def commentLoop : Nat → List Char → Nat → Nat
  | 0, _, i => i
  | fuel + 1, src, i =>
    match peekS src i with
    | none => i
    | some c => if c = '\n' then i else commentLoop fuel src (i + 1)

/-- `Scanner.make_multiline_comment`: skip (counting newlines) until the
closing `*/`, failing at end-of-input with the line the comment opened on. -/
def mlcLoop : Nat → List Char → Nat → Nat → Nat → Except ScanErr (Nat × Nat)
  | 0, _, _, i, line => .ok (i, line)
  | fuel + 1, src, mlcLine, i, line =>
    if isEndS src i then .error ⟨mlcLine, "Unterminated multiline comment"⟩
    else if peekS src i = some '\n' then mlcLoop fuel src mlcLine (i + 1) (line + 1)
    else if peekS src i = some '*' && peekNextC src i = '/' then .ok (i + 2, line)
    else mlcLoop fuel src mlcLine (i + 1) line

/-- The main scanning loop (`Scanner.scan_tokens` driving `Scanner.scan`):
set `start`, advance one character and dispatch, appending the EOF token when
the source is exhausted. The fuel exceeds the source length at every call
site, so the fuel branch is never reached. -/
def scanLoop : Nat → List Char → Nat → Nat → List Token → Except ScanErr (List Token)
  | 0, _, _, line, toks => .ok (toks ++ [⟨.EOF, "", none, line⟩])
  | fuel + 1, src, i, line, toks =>
    if isEndS src i then .ok (toks ++ [⟨.EOF, "", none, line⟩])
    else
      let start := i
      let c := strGet src i
      let i1 := i + 1
      match c with
      | '\n' => scanLoop fuel src i1 (line + 1) toks
      | ' ' => scanLoop fuel src i1 line toks
      | '\r' => scanLoop fuel src i1 line toks
      | '\t' => scanLoop fuel src i1 line toks
      | '*' => scanLoop fuel src i1 line (toks ++ [mkTok .STAR src start i1 line])
      | '%' => scanLoop fuel src i1 line (toks ++ [mkTok .MOD src start i1 line])
      | '?' => scanLoop fuel src i1 line (toks ++ [mkTok .QUESTION src start i1 line])
      | '"' =>
        match makeString fuel src start i1 line with
        | .error e => .error e
        | .ok (t, i2, line2) => scanLoop fuel src i2 line2 (toks ++ [t])
      | '(' => scanLoop fuel src i1 line (toks ++ [mkTok .LEFT_PAREN src start i1 line])
      | ')' => scanLoop fuel src i1 line (toks ++ [mkTok .RIGHT_PAREN src start i1 line])
      | '{' => scanLoop fuel src i1 line (toks ++ [mkTok .LEFT_BRACE src start i1 line])
      | '}' => scanLoop fuel src i1 line (toks ++ [mkTok .RIGHT_BRACE src start i1 line])
      | ',' => scanLoop fuel src i1 line (toks ++ [mkTok .COMMA src start i1 line])
      | ';' => scanLoop fuel src i1 line (toks ++ [mkTok .SEMICOLON src start i1 line])
      | ':' => scanLoop fuel src i1 line (toks ++ [mkTok .COLON src start i1 line])
      | '.' => scanLoop fuel src i1 line (toks ++ [mkTok .DOT src start i1 line])
      | '+' =>
        match matchS src i1 '+' with
        | (m, i2) =>
          scanLoop fuel src i2 line
            (toks ++ [mkTok (if m then .PLUS_PLUS else .PLUS) src start i2 line])
      | '-' =>
        match matchS src i1 '-' with
        | (m, i2) =>
          scanLoop fuel src i2 line
            (toks ++ [mkTok (if m then .MINUS_MINUS else .MINUS) src start i2 line])
      | '!' =>
        match matchS src i1 '=' with
        | (m, i2) =>
          scanLoop fuel src i2 line
            (toks ++ [mkTok (if m then .BANG_EQUAL else .BANG) src start i2 line])
      | '=' =>
        match matchS src i1 '=' with
        | (m, i2) =>
          scanLoop fuel src i2 line
            (toks ++ [mkTok (if m then .EQUAL_EQUAL else .EQUAL) src start i2 line])
      | '/' =>
        match matchS src i1 '/' with
        | (true, i2) => scanLoop fuel src (commentLoop fuel src i2) line toks
        | (false, _) =>
          match matchS src i1 '*' with
          | (true, i2) =>
            match mlcLoop fuel src line i2 line with
            | .error e => .error e
            | .ok (i3, line3) => scanLoop fuel src i3 line3 toks
          | (false, _) =>
            scanLoop fuel src i1 line (toks ++ [mkTok .SLASH src start i1 line])
      | '>' =>
        match matchS src i1 '=' with
        | (m, i2) =>
          scanLoop fuel src i2 line
            (toks ++ [mkTok (if m then .GREATER_EQUAL else .GREATER) src start i2 line])
      | '<' =>
        match matchS src i1 '=' with
        | (m, i2) =>
          scanLoop fuel src i2 line
            (toks ++ [mkTok (if m then .LESS_EQUAL else .LESS) src start i2 line])
      | _ =>
        if isDigitChar c then
          match makeNumber fuel src start i1 line with
          | (t, i2) => scanLoop fuel src i2 line (toks ++ [t])
        else if isAlphaChar c then
          match makeIdentifier fuel src start i1 line with
          | (t, i2) => scanLoop fuel src i2 line (toks ++ [t])
        else
          .error ⟨line, "ScanningError: Unidentified token type."⟩

/-- `Scanner.scan_tokens` on a source string; the line counter starts at 0 as
in `Scanner.__init__`. -/
def scanTokens (source : String) : Except ScanErr (List Token) :=
  scanLoop (source.length + 1) source.toList 0 0 []

/-- A parse error (`src/plox/runtime/errors.py`, `class ParserError`): the
offending token and a message. -/
structure ParseErr where
  token : Token
  message : String
  deriving DecidableEq, Repr

/-- The parser's position is its `self.current` index into the token list;
an escaping error carries the index at the raise point, since the Python
parser object retains its mutated `current` when an exception propagates. -/
abbrev ParseErrSt := ParseErr × Nat

/-- A defensive fallback for out-of-range token indexing; the parser's
guards keep every read in range (the scanner always appends an EOF token). -/
def eofFallback : Token := ⟨.EOF, "", none, 0⟩

/-- `Parser.peek`: the token at `current`. -/
def peekT (toks : List Token) (i : Nat) : Token := toks.getD i eofFallback

/-- `Parser.previous`: the token at `current - 1`. -/
def previousT (toks : List Token) (i : Nat) : Token := toks.getD (i - 1) eofFallback

/-- `Parser.is_end`: the current token is EOF. -/
def isEndT (toks : List Token) (i : Nat) : Bool := (peekT toks i).type == .EOF

/-- The index change of `Parser.advance`: increment unless at the end. -/
def advanceIdx (toks : List Token) (i : Nat) : Nat :=
  if isEndT toks i then i else i + 1

/-- `Parser.check`: the current token has the wanted category (false at the
end). -/
def checkT (toks : List Token) (i : Nat) (ty : TokenType) : Bool :=
  if isEndT toks i then false else (peekT toks i).type == ty

/-- `Parser.match`: try each category in order, advancing past the first one
that checks. -/
def matchT (toks : List Token) (i : Nat) : List TokenType → Bool × Nat
  | [] => (false, i)
  | ty :: rest =>
    if checkT toks i ty then (true, advanceIdx toks i)
    else matchT toks i rest

/-- `Parser.consume`: advance past a token of the wanted category, else raise
a `ParserError` at the current token. -/
def consumeT (toks : List Token) (i : Nat) (ty : TokenType) (msg : String) :
    Except ParseErrSt (Token × Nat) :=
  if checkT toks i ty then
    let i' := advanceIdx toks i
    .ok (previousT toks i', i')
  else
    .error (⟨peekT toks i, msg⟩, i)

/-- The statement starters of `Parser.synchronize`. -/
def starters : List TokenType :=
  [.CLASS, .FUN, .VAR, .FOR, .IF, .WHILE, .PRINT, .RETURN]

/-- The scan-forward loop of `Parser.synchronize`: stop at the end, after a
semicolon, or before a statement starter. -/
def syncLoop : Nat → List Token → Nat → Nat
  | 0, _, i => i
  | fuel + 1, toks, i =>
    if isEndT toks i then i
    else if (previousT toks i).type = .SEMICOLON then i
    else if starters.contains (peekT toks i).type then i
    else syncLoop fuel toks (advanceIdx toks i)

/-- `Parser.synchronize`: advance once, then scan to a statement boundary. -/
def synchronize (fuel : Nat) (toks : List Token) (i : Nat) : Nat :=
  syncLoop fuel toks (advanceIdx toks i)

/-- The expression nonterminals of `src/plox/core/parser.py`, one constructor
per method; the `...Loop` constructors are the `while self.match(...)` loops,
carrying the expression accumulated so far. -/
inductive PK where
  | expression
  | assignment
  | conditional
  | condLoop (acc : Expr)
  | logicalOr
  | orLoop (acc : Expr)
  | logicalAnd
  | andLoop (acc : Expr)
  | equality
  | eqLoop (acc : Expr)
  | comparison
  | compLoop (acc : Expr)
  | term
  | termLoop (acc : Expr)
  | factor
  | factorLoop (acc : Expr)
  | unary
  | primary

/-- Recursive-descent expression parsing, one case per nonterminal of
`src/plox/core/parser.py`, with fuel making the recursion structural; call
sites pass fuel exceeding any possible descent, so the fuel branch is never
reached. -/
def parseE : Nat → PK → List Token → Nat → Except ParseErrSt (Expr × Nat)
  | 0, _, toks, i => .error (⟨peekT toks i, "fuel exhausted"⟩, i)
  | fuel + 1, k, toks, i =>
    match k with
    -- `expression`: delegate to `assignment`
    | .expression => parseE fuel .assignment toks i
    -- `assignment`: parse a conditional; on `=`, recurse right-associatively
    -- and convert via `make_assignment`, catching `InvalidAssignment` locally
    -- (the error is only printed; the original expression is returned)
    | .assignment =>
      match parseE fuel .conditional toks i with
      | .error e => .error e
      | .ok (expr, i1) =>
        match matchT toks i1 [.EQUAL] with
        | (true, i2) =>
          let equals := previousT toks i2
          match parseE fuel .assignment toks i2 with
          | .error e => .error e
          | .ok (value, i3) =>
            match makeAssignment expr equals value with
            | .ok a => .ok (a, i3)
            | .error _ => .ok (expr, i3)
        | (false, i2) => .ok (expr, i2)
    -- `conditional`: ternary `cond ? a : b`
    | .conditional =>
      match parseE fuel .logicalOr toks i with
      | .error e => .error e
      | .ok (expr, i1) => parseE fuel (.condLoop expr) toks i1
    | .condLoop expr =>
      match matchT toks i [.QUESTION] with
      | (false, i1) => .ok (expr, i1)
      | (true, i1) =>
        let operator := previousT toks i1
        match parseE fuel .expression toks i1 with
        | .error e => .error e
        | .ok (left, i2) =>
          match consumeT toks i2 .COLON "Expected ':'" with
          | .error e => .error e
          | .ok (_, i3) =>
            match parseE fuel .conditional toks i3 with
            | .error e => .error e
            | .ok (right, i4) =>
              parseE fuel (.condLoop (.Conditional expr operator left right)) toks i4
    -- `logical_or`
    | .logicalOr =>
      match parseE fuel .logicalAnd toks i with
      | .error e => .error e
      | .ok (expr, i1) => parseE fuel (.orLoop expr) toks i1
    | .orLoop expr =>
      match matchT toks i [.OR] with
      | (false, i1) => .ok (expr, i1)
      | (true, i1) =>
        let operator := previousT toks i1
        match parseE fuel .logicalAnd toks i1 with
        | .error e => .error e
        | .ok (right, i2) => parseE fuel (.orLoop (.Logical expr operator right)) toks i2
    -- `logical_and`
    | .logicalAnd =>
      match parseE fuel .equality toks i with
      | .error e => .error e
      | .ok (expr, i1) => parseE fuel (.andLoop expr) toks i1
    | .andLoop expr =>
      match matchT toks i [.AND] with
      | (false, i1) => .ok (expr, i1)
      | (true, i1) =>
        let operator := previousT toks i1
        match parseE fuel .equality toks i1 with
        | .error e => .error e
        | .ok (right, i2) => parseE fuel (.andLoop (.Logical expr operator right)) toks i2
    -- `equality`: note the right operand is parsed by `self.term()`
    | .equality =>
      match parseE fuel .comparison toks i with
      | .error e => .error e
      | .ok (expr, i1) => parseE fuel (.eqLoop expr) toks i1
    | .eqLoop expr =>
      match matchT toks i [.BANG_EQUAL, .EQUAL_EQUAL] with
      | (false, i1) => .ok (expr, i1)
      | (true, i1) =>
        let operator := previousT toks i1
        match parseE fuel .term toks i1 with
        | .error e => .error e
        | .ok (right, i2) => parseE fuel (.eqLoop (.Binary expr operator right)) toks i2
    -- `comparison`: the right operand is parsed by `self.term()`
    | .comparison =>
      match parseE fuel .term toks i with
      | .error e => .error e
      | .ok (expr, i1) => parseE fuel (.compLoop expr) toks i1
    | .compLoop expr =>
      match matchT toks i [.LESS, .LESS_EQUAL, .GREATER, .GREATER_EQUAL] with
      | (false, i1) => .ok (expr, i1)
      | (true, i1) =>
        let operator := previousT toks i1
        match parseE fuel .term toks i1 with
        | .error e => .error e
        | .ok (right, i2) => parseE fuel (.compLoop (.Binary expr operator right)) toks i2
    -- `term`: the right operand is parsed by `self.factor()`
    | .term =>
      match parseE fuel .factor toks i with
      | .error e => .error e
      | .ok (expr, i1) => parseE fuel (.termLoop expr) toks i1
    | .termLoop expr =>
      match matchT toks i [.PLUS, .MINUS] with
      | (false, i1) => .ok (expr, i1)
      | (true, i1) =>
        let operator := previousT toks i1
        match parseE fuel .factor toks i1 with
        | .error e => .error e
        | .ok (right, i2) => parseE fuel (.termLoop (.Binary expr operator right)) toks i2
    -- `factor`: the right operand is parsed by `self.unary()`
    | .factor =>
      match parseE fuel .unary toks i with
      | .error e => .error e
      | .ok (expr, i1) => parseE fuel (.factorLoop expr) toks i1
    | .factorLoop expr =>
      match matchT toks i [.SLASH, .STAR, .MOD] with
      | (false, i1) => .ok (expr, i1)
      | (true, i1) =>
        let operator := previousT toks i1
        match parseE fuel .unary toks i1 with
        | .error e => .error e
        | .ok (right, i2) => parseE fuel (.factorLoop (.Binary expr operator right)) toks i2
    -- `unary`: right-associative `!`/`-`
    | .unary =>
      match matchT toks i [.BANG, .MINUS] with
      | (true, i1) =>
        let operator := previousT toks i1
        match parseE fuel .unary toks i1 with
        | .error e => .error e
        | .ok (right, i2) => .ok (.Unary operator right, i2)
      | (false, _) => parseE fuel .primary toks i
    -- `primary`: literals, identifiers, parenthesized expressions
    | .primary =>
      match matchT toks i [.FALSE] with
      | (true, i1) => .ok (.Literal (.b false), i1)
      | (false, _) =>
      match matchT toks i [.TRUE] with
      | (true, i1) => .ok (.Literal (.b true), i1)
      | (false, _) =>
      match matchT toks i [.NIL] with
      | (true, i1) => .ok (.Literal .nil, i1)
      | (false, _) =>
      match matchT toks i [.NUMBER, .STRING] with
      | (true, i1) => .ok (.Literal (litOfToken (previousT toks i1).literal), i1)
      | (false, _) =>
      match matchT toks i [.IDENTIFIER] with
      | (true, i1) => .ok (.Variable (previousT toks i1), i1)
      | (false, _) =>
      match matchT toks i [.LEFT_PAREN] with
      | (true, i1) =>
        match parseE fuel .expression toks i1 with
        | .error e => .error e
        | .ok (expr, i2) =>
          match consumeT toks i2 .RIGHT_PAREN "Expect ')' after expression." with
          | .error e => .error e
          | .ok (_, i3) => .ok (.Grouping expr, i3)
      | (false, _) => .error (⟨peekT toks i, "Expected expression"⟩, i)

/-- The statement nonterminals of `src/plox/core/parser.py`; `blockLoop`
carries the statements collected so far. `ifStmt` has no counterpart in the
source — see `parseS`. -/
inductive SK where
  | declaration
  | varDecl
  | statement
  | printStmt
  | exprStmt
  | block
  | blockLoop (acc : List (Option Stmt))
  | ifStmt

/-- Recursive-descent statement parsing, one case per method of
`src/plox/core/parser.py`. `declaration` catches a `ParserError`,
synchronizes at the index where the error was raised, and yields `none`.

The source's `statement()` dispatches only on `print` and `{`. Its `if`
dispatch and the `ifStmt` case are Modelled from the spec: "`ifStmt` requires
a parenthesized condition, a then-branch statement, and an optional `else`
branch (standard dangling-else resolved by binding to the nearest unmatched
`if`)" — the method is missing from `src/plox/core/parser.py` although the
`IfStmt` node and its visitor declaration exist in `src/plox/ast/stmt.py`. -/
def parseS : Nat → SK → List Token → Nat → Except ParseErrSt (Option Stmt × Nat)
  | 0, _, toks, i => .error (⟨peekT toks i, "fuel exhausted"⟩, i)
  | fuel + 1, k, toks, i =>
    match k with
    -- `declaration`: var declarations or statements, with error recovery
    | .declaration =>
      match
        (match matchT toks i [.VAR] with
         | (true, i1) => parseS fuel .varDecl toks i1
         | (false, i1) => parseS fuel .statement toks i1) with
      | .ok r => .ok r
      | .error (_, ei) => .ok (none, synchronize fuel toks ei)
    -- `var_declaration`
    | .varDecl =>
      match consumeT toks i .IDENTIFIER "Expected variable name" with
      | .error e => .error e
      | .ok (name, i1) =>
        match
          (match matchT toks i1 [.EQUAL] with
           | (true, i2) =>
             (parseE fuel .expression toks i2).map (fun r => (some r.1, r.2))
           | (false, i2) => .ok (none, i2) :
            Except ParseErrSt (Option Expr × Nat)) with
        | .error e => .error e
        | .ok (initializer, i3) =>
          match consumeT toks i3 .SEMICOLON "Expected ';' after variable declaration" with
          | .error e => .error e
          | .ok (_, i4) => .ok (some (.Var name initializer), i4)
    -- `statement`: print, block, (modelled) if, else expression statement
    | .statement =>
      match matchT toks i [.PRINT] with
      | (true, i1) => parseS fuel .printStmt toks i1
      | (false, _) =>
      match matchT toks i [.LEFT_BRACE] with
      | (true, i1) => parseS fuel .block toks i1
      | (false, _) =>
      -- Modelled from the spec: the source's `statement()` has no `if`
      -- dispatch; §4.3 requires `ifStmt` here
      match matchT toks i [.IF] with
      | (true, i1) => parseS fuel .ifStmt toks i1
      | (false, _) => parseS fuel .exprStmt toks i
    -- `print_stmt`
    | .printStmt =>
      match parseE fuel .expression toks i with
      | .error e => .error e
      | .ok (value, i1) =>
        match consumeT toks i1 .SEMICOLON "Expected ';' after value" with
        | .error e => .error e
        | .ok (_, i2) => .ok (some (.Print value), i2)
    -- `expression_stmt`
    | .exprStmt =>
      match parseE fuel .expression toks i with
      | .error e => .error e
      | .ok (value, i1) =>
        match consumeT toks i1 .SEMICOLON "Expected ';' after value" with
        | .error e => .error e
        | .ok (_, i2) => .ok (some (.ExpressionStmt value), i2)
    -- `block`
    | .block => parseS fuel (.blockLoop []) toks i
    | .blockLoop acc =>
      if !checkT toks i .RIGHT_BRACE && !isEndT toks i then
        match parseS fuel .declaration toks i with
        | .error e => .error e
        | .ok (os, i1) => parseS fuel (.blockLoop (acc ++ [os])) toks i1
      else
        match consumeT toks i .RIGHT_BRACE "Expected a '\x7d' after a block" with
        | .error e => .error e
        | .ok (_, i1) => .ok (some (.Block acc), i1)
    -- Modelled from the spec: `ifStmt` (missing from the source parser) —
    -- parenthesized condition, then-branch statement, optional else branch
    | .ifStmt =>
      match consumeT toks i .LEFT_PAREN "Expected '(' after 'if'" with
      | .error e => .error e
      | .ok (_, i1) =>
        match parseE fuel .expression toks i1 with
        | .error e => .error e
        | .ok (condition, i2) =>
          match consumeT toks i2 .RIGHT_PAREN "Expected ')' after if condition" with
          | .error e => .error e
          | .ok (_, i3) =>
            match parseS fuel .statement toks i3 with
            | .error e => .error e
            | .ok (none, i4) =>
              -- `statement` never yields `none`; unreachable
              .error (⟨peekT toks i4, "Expected statement"⟩, i4)
            | .ok (some then_branch, i4) =>
              match matchT toks i4 [.ELSE] with
              | (false, i5) => .ok (some (.IfStmt condition then_branch none), i5)
              | (true, i5) =>
                match parseS fuel .statement toks i5 with
                | .error e => .error e
                | .ok (none, i6) =>
                  -- unreachable, as above
                  .error (⟨peekT toks i6, "Expected statement"⟩, i6)
                | .ok (some else_branch, i6) =>
                  .ok (some (.IfStmt condition then_branch (some else_branch)), i6)

/-- `Parser.parse`: append `declaration()` results (possibly `None`) until
the end of the token list. -/
def parseTop : Nat → List Token → Nat → List (Option Stmt) →
    Except ParseErrSt (List (Option Stmt))
  | 0, _, _, acc => .ok acc
  | fuel + 1, toks, i, acc =>
    if isEndT toks i then .ok acc
    else
      match parseS fuel .declaration toks i with
      | .error e => .error e
      | .ok (os, i1) => parseTop fuel toks i1 (acc ++ [os])

/-- Parse a full token list (as produced by the scanner) from index 0, with
ample fuel. -/
def parseToks (toks : List Token) : Except ParseErrSt (List (Option Stmt)) :=
  parseTop ((toks.length + 4) * 32) toks 0 []

/-- The outcome of the full pipeline on one source string. -/
inductive RunRes where
  | scanFail (e : ScanErr)
  | parseFail (e : ParseErr)
  | runFail (err : RErr) (out : List PyVal)
  | res (out : List PyVal) (caught : Option RErr) (env : Env)
  deriving DecidableEq, Repr

/-- scan → parse → interpret on a fresh interpreter (global environment
only), as the REPL/tests drive the pipeline. `runFail` reports an exception
escaping `interpret` (an `UndefinedVariable`); `res` carries the print
output, the runtime error caught by `interpret` (if any), and the final
environment. -/
def run (source : String) : RunRes :=
  match scanTokens source with
  | .error e => .scanFail e
  | .ok toks =>
    match parseToks toks with
    | .error (e, _) => .parseFail e
    | .ok stmts =>
      match interpret (source.length + 1) stmts (.top []) [] with
      | .ok (env, out, caught) => .res out caught env
      | .error (err, _, out) => .runFail err out

/-- The values printed by a run (empty when scanning or parsing failed). -/
def RunRes.outputs : RunRes → List PyVal
  | .res out _ _ => out
  | .runFail _ out => out
  | _ => []

/-- Python's `str()` of an integral float `n` is `"n.0"`; `print` writes this
text for the numeric values exercised by the claims. Non-integral floats use
the host's shortest round-trip form, which the exact-rational model does not
reproduce; no theorem below evaluates it. -/
def floatText (q : ℚ) : String :=
  if q.den = 1 then toString q.num ++ ".0" else toString q

/-- Expression-level parse of a source string: scan, then run the
`expression` nonterminal from index 0 with ample fuel, returning the parsed
tree and the index of the first unconsumed token. -/
def parseExprSrc (source : String) : Except ScanErr (Except ParseErrSt (Expr × Nat)) :=
  (scanTokens source).map (fun toks => parseE ((toks.length + 4) * 32) .expression toks 0)

/-- Statement-level parse of a source string: scan, then `Parser.parse`. -/
def parseSrc (source : String) : Except ScanErr (Except ParseErrSt (List (Option Stmt))) :=
  (scanTokens source).map parseToks

/-- The environment component of an expression-evaluation result (the
interpreter's `self.environment` after the evaluation, on both paths). -/
def evalEnvOf : Except (RErr × Env) (PyVal × Env) → Env
  | .ok (_, e) => e
  | .error (_, e) => e

/-- The environment component of a statement-execution result. -/
def resEnvOf : Except ExecErr ExecOk → Env
  | .ok (e, _) => e
  | .error (_, e, _) => e

/-- The output component of a statement-execution result. -/
def resOutOf : Except ExecErr ExecOk → List PyVal
  | .ok (_, o) => o
  | .error (_, _, o) => o

/-- Whether a statement-execution result is a success. -/
def resIsOk : Except ExecErr ExecOk → Bool
  | .ok _ => true
  | .error _ => false

/-- The x token and the assigned expression of `x = x + 1`, as scanned from
the C1 program. -/
def xTok : Token := ⟨.IDENTIFIER, "x", none, 0⟩

/-- The unevaluated right-hand side `x + 1` of the C1 program's assignment. -/
def xPlusOne : Expr :=
  .Binary (.Variable xTok) ⟨.PLUS, "+", none, 0⟩ (.Literal (.num 1))

/-- C1: the claim says `visit_Assign` stores the evaluated value, so that
`var x = 5; x = x + 1; print x;` prints 6. The code instead passes the AST
node `expr.value` to `Environment.assign`: after the run, `x` is bound to the
expression object `x + 1` (not the float `6.0`), that object is what `print`
receives, and the output is not `[6.0]`. -/
theorem assign_stores_unevaluated_expression :
    run "var x = 5; x = x + 1; print x;" =
      .res [.exprV xPlusOne] none (.top [("x", .exprV xPlusOne)]) ∧
    (run "var x = 5; x = x + 1; print x;").outputs ≠ [.num 6] := by
  refine ⟨by with_unfolding_all rfl, by with_unfolding_all decide⟩

/-- C2: the claim says `nil == nil` evaluates to true. `is_equal` guards with
`type(a) == None`, which is always false in Python, so the nil/nil case falls
through every branch and returns `False`: `print nil == nil;` prints false. -/
theorem nil_equality_evaluates_to_false :
    typeIsNone .nil = false ∧
    isEqual .nil .nil = false ∧
    run "print nil == nil;" = .res [.b false] none (.top []) := by
  refine ⟨rfl, rfl, by with_unfolding_all rfl⟩

/-- C4: with the spec-modelled `ifStmt` parsing and `visit_IfStmt` execution
(both absent from src), the pipeline accepts a parenthesized condition, a
then-branch and an optional else branch, `if (1 > 0) print 5; else print 3;`
prints `5.0`, and a dangling else binds to the nearest unmatched `if` (the
nested program prints `2.0`, which it would not if the else bound to the
outer `if`). -/
theorem if_statement_parses_and_executes :
    run "if (1 > 0) print 5; else print 3;" = .res [.num 5] none (.top []) ∧
    floatText 5 = "5.0" ∧
    run "if (1 > 0) if (1 < 0) print 1; else print 2;" =
      .res [.num 2] none (.top []) := by
  refine ⟨by with_unfolding_all rfl, by with_unfolding_all rfl,
    by with_unfolding_all rfl⟩

/-- C5 counterexample: the claim says the right operand of `==`/`!=` is
parsed at the comparison level, so that `1 == 2 < 3` parses as
`Binary(1, ==, Binary(2, <, 3))`. In the code `equality` parses its right
operand with `self.term()`: on those tokens the expression parser returns
`Binary(1, ==, 2)` stopping at index 3 (the `<` is not consumed), which is
not the claimed tree, and as a statement `1 == 2 < 3;` fails to parse (the
parser synchronizes and yields `[None]`). -/
theorem equality_right_operand_not_comparison_level :
    parseExprSrc "1 == 2 < 3" =
      .ok (.ok (.Binary (.Literal (.num 1)) ⟨.EQUAL_EQUAL, "==", none, 0⟩
                  (.Literal (.num 2)), 3)) ∧
    (.Binary (.Literal (.num 1)) ⟨.EQUAL_EQUAL, "==", none, 0⟩
        (.Literal (.num 2)) : Expr) ≠
      .Binary (.Literal (.num 1)) ⟨.EQUAL_EQUAL, "==", none, 0⟩
        (.Binary (.Literal (.num 2)) ⟨.LESS, "<", none, 0⟩ (.Literal (.num 3))) ∧
    run "1 == 2 < 3;" = .res [] none (.top []) := by
  refine ⟨by with_unfolding_all rfl, by decide, by with_unfolding_all rfl⟩

/-- C5 (amended): `equality` is left-associative with its right operand
parsed at the term level (the same level `comparison` uses), so `1 == 2 < 3`
stops after `1 == 2` with `< 3` unconsumed; `comparison`'s right operand is
at term level and `term`'s right operand at factor level, as witnessed by
`1 < 2 + 3` and `1 + 2 * 3`, and chained equality operators associate to the
left (`1 == 2 != 3`). -/
theorem equality_right_operand_at_term_level :
    parseExprSrc "1 == 2 < 3" =
      .ok (.ok (.Binary (.Literal (.num 1)) ⟨.EQUAL_EQUAL, "==", none, 0⟩
                  (.Literal (.num 2)), 3)) ∧
    parseExprSrc "1 == 2 != 3" =
      .ok (.ok (.Binary
           (.Binary (.Literal (.num 1)) ⟨.EQUAL_EQUAL, "==", none, 0⟩
             (.Literal (.num 2)))
           ⟨.BANG_EQUAL, "!=", none, 0⟩ (.Literal (.num 3)), 5)) ∧
    parseExprSrc "1 < 2 + 3" =
      .ok (.ok (.Binary (.Literal (.num 1)) ⟨.LESS, "<", none, 0⟩
           (.Binary (.Literal (.num 2)) ⟨.PLUS, "+", none, 0⟩
             (.Literal (.num 3))), 5)) ∧
    parseExprSrc "1 + 2 * 3" =
      .ok (.ok (.Binary (.Literal (.num 1)) ⟨.PLUS, "+", none, 0⟩
           (.Binary (.Literal (.num 2)) ⟨.STAR, "*", none, 0⟩
             (.Literal (.num 3))), 5)) := by
  refine ⟨by with_unfolding_all rfl, by with_unfolding_all rfl,
    by with_unfolding_all rfl, by with_unfolding_all rfl⟩

/-- Python `x == x` is true for every literal payload (no NaN floats occur:
literals are decoded from digit runs). -/
theorem pyLitEq_self (x : Option LitVal) : pyLitEq x x = true := by
  match x with
  | none => rfl
  | some (.num a) => simp [pyLitEq]
  | some (.str s) => simp [pyLitEq]

/-- C9 counterexample: `__ne__` is not the negation of `__eq__` — a NUMBER
token and a STRING token with the same lexeme satisfy neither `==` nor `!=`;
and `__eq__` holds between tokens whose literal and line fields differ, so
equality is not structural over all four fields. -/
theorem token_eq_ne_counterexample :
    tokEq ⟨.NUMBER, "1", some (.num 1), 1⟩ ⟨.STRING, "1", some (.num 1), 1⟩ = false ∧
    tokNe ⟨.NUMBER, "1", some (.num 1), 1⟩ ⟨.STRING, "1", some (.num 1), 1⟩ = false ∧
    tokEq ⟨.NUMBER, "1", some (.num 1), 1⟩ ⟨.NUMBER, "1", some (.num 2), 7⟩ = true ∧
    (⟨.NUMBER, "1", some (.num 1), 1⟩ : Token) ≠ ⟨.NUMBER, "1", some (.num 2), 7⟩ := by
  refine ⟨by with_unfolding_all rfl, by with_unfolding_all rfl,
    by with_unfolding_all rfl, by with_unfolding_all decide⟩

/-- C9 (amended): `Token.__eq__` compares exactly the category and the
lexeme — its literal conjunct compares the token's own literal with itself
and is always true, and `line` is never compared; `Token.__ne__` holds
exactly when both the lexemes and the literals differ (its category conjunct
compares the category with the lexeme and is always true), and is therefore
not the negation of `__eq__`. -/
theorem token_equality_semantics :
    ∀ t u : Token,
      (tokEq t u = true ↔ t.type = u.type ∧ t.lexeme = u.lexeme) ∧
      (tokNe t u = true ↔ t.lexeme ≠ u.lexeme ∧ pyLitEq t.literal u.literal = false) := by
  intro t u
  constructor
  · simp [tokEq, pyLitEq_self]
  · simp [tokNe, pyLitNe]

/-- C7: for `/` and `%`, once both operands evaluate to numbers, a zero right
operand raises the division-by-zero `LoxRunTimeError` carrying the operator
token, and a non-zero right operand divides (resp. takes the Python float
modulus) normally. -/
theorem division_or_modulo_by_zero_raises :
    ∀ (l r : Expr) (tok : Token) (env envl envr : Env) (a b : ℚ),
      eval l env = .ok (.num a, envl) →
      eval r envl = .ok (.num b, envr) →
      (b = 0 → tok.type = .SLASH ∨ tok.type = .MOD →
        eval (.Binary l tok r) env =
          .error (.loxRunTime tok "Division by zero.", envr)) ∧
      (b ≠ 0 → tok.type = .SLASH →
        eval (.Binary l tok r) env = .ok (.num (a / b), envr)) ∧
      (b ≠ 0 → tok.type = .MOD →
        eval (.Binary l tok r) env = .ok (.num (pymod a b), envr)) := by
  intro l r tok env envl envr a b h1 h2
  refine ⟨?_, ?_, ?_⟩
  · rintro hb (hty | hty) <;>
      simp [eval, h1, h2, binaryOp, hty, checkNumOperands, hb, Bind.bind, Except.bind]
  · intro hb hty
    simp [eval, h1, h2, binaryOp, hty, checkNumOperands, hb, Bind.bind, Except.bind]
  · intro hb hty
    simp [eval, h1, h2, binaryOp, hty, checkNumOperands, hb, Bind.bind, Except.bind]

/-- Witness for `division_or_modulo_by_zero_raises`: `1 / 0` and `1 % 0`
raise, `4 / 2` and `3 % 2` compute. -/
theorem division_or_modulo_by_zero_raises_witness :
    eval (.Binary (.Literal (.num 1)) ⟨.SLASH, "/", none, 0⟩ (.Literal (.num 0)))
        (.top []) =
      .error (.loxRunTime ⟨.SLASH, "/", none, 0⟩ "Division by zero.", .top []) ∧
    eval (.Binary (.Literal (.num 1)) ⟨.MOD, "%", none, 0⟩ (.Literal (.num 0)))
        (.top []) =
      .error (.loxRunTime ⟨.MOD, "%", none, 0⟩ "Division by zero.", .top []) ∧
    eval (.Binary (.Literal (.num 4)) ⟨.SLASH, "/", none, 0⟩ (.Literal (.num 2)))
        (.top []) = .ok (.num 2, .top []) ∧
    eval (.Binary (.Literal (.num 3)) ⟨.MOD, "%", none, 0⟩ (.Literal (.num 2)))
        (.top []) = .ok (.num 1, .top []) := by
  refine ⟨(division_or_modulo_by_zero_raises (.Literal (.num 1)) (.Literal (.num 0))
      ⟨.SLASH, "/", none, 0⟩ (.top []) (.top []) (.top []) 1 0 rfl rfl).1 rfl
      (Or.inl rfl),
    (division_or_modulo_by_zero_raises (.Literal (.num 1)) (.Literal (.num 0))
      ⟨.MOD, "%", none, 0⟩ (.top []) (.top []) (.top []) 1 0 rfl rfl).1 rfl
      (Or.inr rfl),
    ?_, ?_⟩
  · have h := (division_or_modulo_by_zero_raises (.Literal (.num 4)) (.Literal (.num 2))
      ⟨.SLASH, "/", none, 0⟩ (.top []) (.top []) (.top []) 4 2 rfl rfl).2.1
      (by norm_num) rfl
    rw [h]
    with_unfolding_all rfl
  · have h := (division_or_modulo_by_zero_raises (.Literal (.num 3)) (.Literal (.num 2))
      ⟨.MOD, "%", none, 0⟩ (.top []) (.top []) (.top []) 3 2 rfl rfl).2.2
      (by norm_num) rfl
    rw [h]
    with_unfolding_all rfl

/-- C8: `visit_Logical` evaluates the left operand once; `or` returns the
left value (and environment) untouched when the left is truthy, `and` when
the left is falsy — for an arbitrary right operand, which is not evaluated —
and otherwise the result is exactly the evaluation of the right operand; and
exactly `nil` and boolean `false` are falsy. The returned value is always
one of the operands' own values, never a coerced boolean. -/
theorem logical_short_circuit :
    (∀ v : PyVal, isTruthy v = false ↔ v = .nil ∨ v = .b false) ∧
    ∀ (l r : Expr) (op : Token) (env env1 : Env) (lv : PyVal),
      eval l env = .ok (lv, env1) →
      (op.type = .OR → isTruthy lv = true →
        eval (.Logical l op r) env = .ok (lv, env1)) ∧
      (op.type = .OR → isTruthy lv = false →
        eval (.Logical l op r) env = eval r env1) ∧
      (op.type = .AND → isTruthy lv = false →
        eval (.Logical l op r) env = .ok (lv, env1)) ∧
      (op.type = .AND → isTruthy lv = true →
        eval (.Logical l op r) env = eval r env1) := by
  constructor
  · intro v
    cases v <;> simp [isTruthy]
  · intro l r op env env1 lv h1
    refine ⟨?_, ?_, ?_, ?_⟩ <;> intro hop htr <;>
      simp [eval, h1, hop, htr]

/-- Witness for `logical_short_circuit`: `0 or "s"` yields the numeric `0`
itself (truthy left, right never evaluated), and `nil and 1` yields `nil`. -/
theorem logical_short_circuit_witness :
    eval (.Logical (.Literal (.num 0)) ⟨.OR, "or", none, 0⟩ (.Literal (.str "s")))
        (.top []) = .ok (.num 0, .top []) ∧
    eval (.Logical (.Literal .nil) ⟨.AND, "and", none, 0⟩ (.Literal (.num 1)))
        (.top []) = .ok (.nil, .top []) :=
  ⟨(logical_short_circuit.2 (.Literal (.num 0)) (.Literal (.str "s"))
      ⟨.OR, "or", none, 0⟩ (.top []) (.top []) (.num 0) rfl).1 rfl rfl,
   (logical_short_circuit.2 (.Literal .nil) (.Literal (.num 1))
      ⟨.AND, "and", none, 0⟩ (.top []) (.top []) .nil rfl).2.2.1 rfl rfl⟩

/-- Re-setting a key overwrites the previous setting of the same key. -/
theorem dictSet_dictSet (m : List (String × PyVal)) (k : String) (v1 v2 : PyVal) :
    dictSet (dictSet m k v1) k v2 = dictSet m k v2 := by
  induction m with
  | nil => simp [dictSet]
  | cons hd tl ih =>
    obtain ⟨k', v'⟩ := hd
    by_cases h : k' = k <;> simp [dictSet, h, ih]

/-- Overwriting a present key leaves the dict's key list unchanged. -/
theorem dictSet_map_fst (m : List (String × PyVal)) (k : String) (v : PyVal)
    (h : (dictFind m k).isSome = true) :
    (dictSet m k v).map Prod.fst = m.map Prod.fst := by
  induction m with
  | nil => simp [dictFind] at h
  | cons hd tl ih =>
    obtain ⟨k', v'⟩ := hd
    by_cases hk : k' = k
    · simp [dictSet, hk]
    · simp [dictFind, hk] at h
      simp [dictSet, hk, ih h]

/-- `get` raises the undefined-variable error carrying the token exactly
when the name is absent from the entire chain. -/
theorem Env.get_error_iff (env : Env) (tok : Token) :
    env.get tok = .error (.undefinedVariable tok "Undefined variable") ↔
      env.boundChain tok.lexeme = false := by
  induction env with
  | top vals =>
    cases h : dictFind vals tok.lexeme <;>
      simp [Env.get, Env.boundChain, h]
  | inner vals e ih =>
    cases h : dictFind vals tok.lexeme <;>
      simp [Env.get, Env.boundChain, h, ih]

/-- `get` succeeds exactly when the name is bound somewhere in the chain. -/
theorem Env.get_ok_iff (env : Env) (tok : Token) :
    (∃ w, env.get tok = .ok w) ↔ env.boundChain tok.lexeme = true := by
  induction env with
  | top vals =>
    cases h : dictFind vals tok.lexeme <;>
      simp [Env.get, Env.boundChain, h]
  | inner vals e ih =>
    cases h : dictFind vals tok.lexeme <;>
      simp [Env.get, Env.boundChain, h, ih]

/-- `assign` raises the undefined-variable error carrying the token exactly
when the name is absent from the entire chain. -/
theorem Env.assign_error_iff (env : Env) (tok : Token) (v : PyVal) :
    env.assign tok v = .error (.undefinedVariable tok "Undefined variable") ↔
      env.boundChain tok.lexeme = false := by
  induction env with
  | top vals =>
    by_cases h : (dictFind vals tok.lexeme).isSome = true <;>
      simp [Env.assign, Env.boundChain, h]
  | inner vals e ih =>
    by_cases h : (dictFind vals tok.lexeme).isSome = true
    · simp [Env.assign, Env.boundChain, h]
    · cases ha : e.assign tok v with
      | ok e' =>
        simp [ha] at ih
        simp [Env.assign, Env.boundChain, h, Except.map, ha, ih]
      | error err =>
        simp [ha] at ih
        simp [Env.assign, Env.boundChain, h, Except.map, ha, ih]

/-- A successful `assign` never creates (or removes) a binding: the bound
names of every scope in the chain are unchanged. -/
theorem Env.assign_doms (env : Env) (tok : Token) (v : PyVal) :
    Env.doms ((env.assign tok v).toOption.getD env) = env.doms := by
  induction env with
  | top vals =>
    by_cases h : (dictFind vals tok.lexeme).isSome = true
    · simp [Env.assign, h, Except.toOption, Env.doms, dictSet_map_fst vals tok.lexeme v h]
    · simp [Env.assign, h, Except.toOption]
  | inner vals e ih =>
    by_cases h : (dictFind vals tok.lexeme).isSome = true
    · simp [Env.assign, h, Except.toOption, Env.doms, dictSet_map_fst vals tok.lexeme v h]
    · cases ha : e.assign tok v with
      | ok e' =>
        simp [ha, Except.toOption] at ih
        simp [Env.assign, h, Except.map, ha, Except.toOption, Env.doms, ih]
      | error err =>
        simp [Env.assign, h, Except.map, ha, Except.toOption]

/-- C6: the environment contract — `define` inserts or overwrites in the
current scope only (re-declaration permitted, the enclosing chain untouched);
`get` and `assign` delegate to the enclosing environment on a local miss and
raise the undefined-variable error carrying the token exactly when the name
is absent from the entire chain; and `assign` never creates a binding (the
bound names of every scope are preserved). -/
theorem environment_contract :
    ∀ (env : Env) (vals : List (String × PyVal)) (enc : Env) (tok : Token)
      (n : String) (v v2 : PyVal),
      (env.define n v).enclosingOpt = env.enclosingOpt ∧
      (env.define n v).values = dictSet env.values n v ∧
      (env.define n v).define n v2 = env.define n v2 ∧
      ((Env.inner vals enc).get tok =
        match dictFind vals tok.lexeme with
        | some w => .ok w
        | none => enc.get tok) ∧
      ((Env.inner vals enc).assign tok v =
        if (dictFind vals tok.lexeme).isSome then
          .ok (.inner (dictSet vals tok.lexeme v) enc)
        else (enc.assign tok v).map (fun e' => .inner vals e')) ∧
      (env.get tok = .error (.undefinedVariable tok "Undefined variable") ↔
        env.boundChain tok.lexeme = false) ∧
      ((∃ w, env.get tok = .ok w) ↔ env.boundChain tok.lexeme = true) ∧
      (env.assign tok v = .error (.undefinedVariable tok "Undefined variable") ↔
        env.boundChain tok.lexeme = false) ∧
      Env.doms ((env.assign tok v).toOption.getD env) = env.doms := by
  intro env vals enc tok n v v2
  refine ⟨?_, ?_, ?_, rfl, rfl, Env.get_error_iff env tok, Env.get_ok_iff env tok,
    Env.assign_error_iff env tok v, Env.assign_doms env tok v⟩
  · cases env <;> rfl
  · cases env <;> rfl
  · cases env <;> simp [Env.define, dictSet_dictSet]

/-- C10: `interpret` executes exactly the non-`None` statements, in order
(running a list is the same as running it with the `None` entries dropped);
and after a parse error with synchronization, `parse` yields `None` in place
of the malformed declaration — on `"+ ; print 1;"` it returns
`[None, print-statement]` and the pipeline still prints `1.0`. -/
theorem parse_none_entries_skipped :
    (∀ (fuel : Nat) (stmts : List (Option Stmt)) (env : Env) (out : List PyVal),
      interpret fuel stmts env out =
        interpret fuel ((stmts.filterMap id).map some) env out) ∧
    parseSrc "+ ; print 1;" =
      .ok (.ok [none, some (.Print (.Literal (.num 1)))]) ∧
    run "+ ; print 1;" = .res [.num 1] none (.top []) := by
  refine ⟨?_, by with_unfolding_all rfl, by with_unfolding_all rfl⟩
  intro fuel stmts
  induction stmts with
  | nil => intro env out; rfl
  | cons hd tl ih =>
    intro env out
    cases hd with
    | none => simpa [List.filterMap_cons, interpret] using ih env out
    | some s =>
      simp only [List.filterMap_cons, id, List.map_cons]
      cases h : execFuel fuel s env out with
      | ok p =>
        obtain ⟨env1, out1⟩ := p
        simp [interpret, h, ih]
      | error e =>
        obtain ⟨err, env1, out1⟩ := e
        cases err <;> simp [interpret, h]

/-- Every chain has at least the global scope. -/
theorem Env.depth_pos (env : Env) : 0 < env.depth := by
  cases env <;> simp [Env.depth]

/-- The frame-wise name lists have one entry per scope. -/
theorem Env.doms_length (env : Env) : env.doms.length = env.depth := by
  induction env with
  | top vals => rfl
  | inner vals e ih => simp [Env.doms, Env.depth, ih]

/-- `define` never changes the length of the chain. -/
theorem Env.define_depth (env : Env) (n : String) (v : PyVal) :
    (env.define n v).depth = env.depth := by
  cases env <;> rfl

/-- A successful `assign` never changes the length of the chain. -/
theorem Env.assign_depth (env : Env) (tok : Token) (v : PyVal) (env' : Env)
    (h : env.assign tok v = .ok env') : env'.depth = env.depth := by
  have hd := Env.assign_doms env tok v
  rw [h] at hd
  simp only [Except.toOption, Option.getD] at hd
  have := congrArg List.length hd
  simpa [Env.doms_length] using this

/-- Expression evaluation never changes the length of the environment chain,
on the success and the error path alike (`assign` only overwrites). -/
theorem eval_depth : ∀ (e : Expr) (env : Env),
    (evalEnvOf (eval e env)).depth = env.depth := by
  intro e
  induction e with
  | Literal v => intro env; rfl
  | Grouping e ih => intro env; simp only [eval]; exact ih env
  | Variable name =>
    intro env
    cases h : env.get name <;> simp [eval, h, evalEnvOf]
  | Unary op r ih =>
    intro env
    cases h : eval r env with
    | error pe =>
      obtain ⟨err, env1⟩ := pe
      have hd := ih env; rw [h] at hd; simp only [evalEnvOf] at hd
      simpa [eval, h, evalEnvOf] using hd
    | ok p =>
      obtain ⟨rv, env1⟩ := p
      have hd := ih env; rw [h] at hd; simp only [evalEnvOf] at hd
      cases hu : unaryOp op rv <;> simpa [eval, h, hu, evalEnvOf] using hd
  | Binary l op r ihl ihr =>
    intro env
    cases h1 : eval l env with
    | error pe =>
      obtain ⟨err, env1⟩ := pe
      have hl := ihl env; rw [h1] at hl; simp only [evalEnvOf] at hl
      simpa [eval, h1, evalEnvOf] using hl
    | ok p =>
      obtain ⟨lv, env1⟩ := p
      have hl := ihl env; rw [h1] at hl; simp only [evalEnvOf] at hl
      cases h2 : eval r env1 with
      | error pe =>
        obtain ⟨err, env2⟩ := pe
        have hr := ihr env1; rw [h2] at hr; simp only [evalEnvOf] at hr
        simp [eval, h1, h2, evalEnvOf, hr, hl]
      | ok p2 =>
        obtain ⟨rv, env2⟩ := p2
        have hr := ihr env1; rw [h2] at hr; simp only [evalEnvOf] at hr
        cases hb : binaryOp op lv rv <;>
          simp [eval, h1, h2, hb, evalEnvOf, hr, hl]
  | Logical l op r ihl ihr =>
    intro env
    cases h : eval l env with
    | error pe =>
      obtain ⟨err, env1⟩ := pe
      have hl := ihl env; rw [h] at hl; simp only [evalEnvOf] at hl
      simpa [eval, h, evalEnvOf] using hl
    | ok p =>
      obtain ⟨lv, env1⟩ := p
      have hl := ihl env; rw [h] at hl; simp only [evalEnvOf] at hl
      have hr := ihr env1
      simp only [evalEnvOf] at hr
      by_cases hop : op.type = .OR <;>
        cases htr : isTruthy lv <;>
          simp [eval, h, hop, htr, evalEnvOf, hl, hr]
  | Conditional c op l r ihc ihl ihr =>
    intro env
    cases h : eval c env with
    | error pe =>
      obtain ⟨err, env1⟩ := pe
      have hc := ihc env; rw [h] at hc; simp only [evalEnvOf] at hc
      simpa [eval, h, evalEnvOf] using hc
    | ok p =>
      obtain ⟨cv, env1⟩ := p
      have hc := ihc env; rw [h] at hc; simp only [evalEnvOf] at hc
      cases htr : isTruthy cv
      · have := ihr env1
        simp [eval, h, htr, this, hc]
      · have := ihl env1
        simp [eval, h, htr, this, hc]
  | Assign name value ih =>
    intro env
    cases h : eval value env with
    | error pe =>
      obtain ⟨err, env1⟩ := pe
      have hv := ih env; rw [h] at hv; simp only [evalEnvOf] at hv
      simpa [eval, h, evalEnvOf] using hv
    | ok p =>
      obtain ⟨v, env1⟩ := p
      have hv := ih env; rw [h] at hv; simp only [evalEnvOf] at hv
      cases ha : env1.assign name (.exprV value) with
      | ok env2 =>
        have hd := Env.assign_depth env1 name (.exprV value) env2 ha
        simp [eval, h, ha, evalEnvOf, hd, hv]
      | error err => simp [eval, h, ha, evalEnvOf, hv]

/-- The Block case of `execFuel`, routed through `execBlockBody`. -/
theorem execFuel_block (fuel : Nat) (stmts : List (Option Stmt)) (env : Env)
    (out : List PyVal) :
    execFuel (fuel + 1) (.Block stmts) env out =
      (match execBlockBody fuel stmts (.inner [] env) out with
       | .ok (env1, out1) => .ok (popScope env1, out1)
       | .error (err, env1, out1) => .error (err, popScope env1, out1)) := rfl

/-- Unfolding: an empty block body is a no-op. -/
theorem execBlockBody_nil (fuel : Nat) (env : Env) (out : List PyVal) :
    execBlockBody fuel [] env out = .ok (env, out) := rfl

/-- Unfolding: a dropped (`none`) declaration executes nothing. -/
theorem execBlockBody_cons_none (fuel : Nat) (tl : List (Option Stmt))
    (env : Env) (out : List PyVal) :
    execBlockBody fuel (none :: tl) env out = execBlockBody fuel tl env out := rfl

/-- Unfolding: a present statement executes, then the rest of the block. -/
theorem execBlockBody_cons_some (fuel : Nat) (s : Stmt) (tl : List (Option Stmt))
    (env : Env) (out : List PyVal) :
    execBlockBody fuel (some s :: tl) env out =
      (match execFuel fuel s env out with
       | .ok (env1, out1) => execBlockBody fuel tl env1 out1
       | .error e => .error e) := by
  cases h : execFuel fuel s env out with
  | ok p => obtain ⟨env1, out1⟩ := p; simp [execBlockBody, List.foldlM, h, Bind.bind, Except.bind]
  | error e => simp [execBlockBody, List.foldlM, h, Bind.bind, Except.bind]

/-- A block body preserves the chain length, provided each statement does at
the given fuel. -/
theorem execBlockBody_depth_of (fuel : Nat)
    (hexec : ∀ (s : Stmt) (env : Env) (out : List PyVal),
      (resEnvOf (execFuel fuel s env out)).depth = env.depth) :
    ∀ (stmts : List (Option Stmt)) (env : Env) (out : List PyVal),
      (resEnvOf (execBlockBody fuel stmts env out)).depth = env.depth := by
  intro stmts
  induction stmts with
  | nil => intro env out; rfl
  | cons os tl ih =>
    intro env out
    cases os with
    | none => rw [execBlockBody_cons_none]; exact ih env out
    | some s =>
      rw [execBlockBody_cons_some]
      cases h : execFuel fuel s env out with
      | ok p =>
        obtain ⟨env1, out1⟩ := p
        have hd := hexec s env out; rw [h] at hd; simp only [resEnvOf] at hd
        exact (ih env1 out1).trans hd
      | error pe =>
        obtain ⟨err, env1, out1⟩ := pe
        have hd := hexec s env out; rw [h] at hd; simp only [resEnvOf] at hd
        simpa [resEnvOf] using hd

/-- Statement execution never changes the length of the environment chain:
in particular a block pushes one scope and pops it again on every path. -/
theorem exec_depth : ∀ (fuel : Nat) (s : Stmt) (env : Env) (out : List PyVal),
    (resEnvOf (execFuel fuel s env out)).depth = env.depth := by
  intro fuel
  induction fuel with
  | zero => intro s env out; rfl
  | succ f ih =>
    intro s env out
    cases s with
    | ExpressionStmt e =>
      cases h : eval e env with
      | ok p =>
        obtain ⟨v, env1⟩ := p
        have hd := eval_depth e env; rw [h] at hd; simp only [evalEnvOf] at hd
        simpa [execFuel, h, resEnvOf] using hd
      | error pe =>
        obtain ⟨err, env1⟩ := pe
        have hd := eval_depth e env; rw [h] at hd; simp only [evalEnvOf] at hd
        simpa [execFuel, h, resEnvOf] using hd
    | Print e =>
      cases h : eval e env with
      | ok p =>
        obtain ⟨v, env1⟩ := p
        have hd := eval_depth e env; rw [h] at hd; simp only [evalEnvOf] at hd
        simpa [execFuel, h, resEnvOf] using hd
      | error pe =>
        obtain ⟨err, env1⟩ := pe
        have hd := eval_depth e env; rw [h] at hd; simp only [evalEnvOf] at hd
        simpa [execFuel, h, resEnvOf] using hd
    | Var name init =>
      cases init with
      | none => simp [execFuel, resEnvOf, Env.define_depth]
      | some e =>
        cases h : eval e env with
        | ok p =>
          obtain ⟨v, env1⟩ := p
          have hd := eval_depth e env; rw [h] at hd; simp only [evalEnvOf] at hd
          simpa [execFuel, h, resEnvOf, Env.define_depth] using hd
        | error pe =>
          obtain ⟨err, env1⟩ := pe
          have hd := eval_depth e env; rw [h] at hd; simp only [evalEnvOf] at hd
          simpa [execFuel, h, resEnvOf] using hd
    | Block stmts =>
      rw [execFuel_block]
      have hb := execBlockBody_depth_of f ih stmts (.inner [] env) out
      cases h : execBlockBody f stmts (.inner [] env) out with
      | ok p =>
        obtain ⟨env1, out1⟩ := p
        rw [h] at hb; simp only [resEnvOf] at hb
        cases env1 with
        | top vals =>
          exfalso
          simp [Env.depth] at hb
          have := Env.depth_pos env
          omega
        | inner vals' e' =>
          simp only [resEnvOf, popScope]
          simp [Env.depth] at hb
          omega
      | error pe =>
        obtain ⟨err, env1, out1⟩ := pe
        rw [h] at hb; simp only [resEnvOf] at hb
        cases env1 with
        | top vals =>
          exfalso
          simp [Env.depth] at hb
          have := Env.depth_pos env
          omega
        | inner vals' e' =>
          simp only [resEnvOf, popScope]
          simp [Env.depth] at hb
          omega
    | IfStmt c t e =>
      cases h : eval c env with
      | error pe =>
        obtain ⟨err, env1⟩ := pe
        have hd := eval_depth c env; rw [h] at hd; simp only [evalEnvOf] at hd
        simpa [execFuel, h, resEnvOf] using hd
      | ok p =>
        obtain ⟨cv, env1⟩ := p
        have hd := eval_depth c env; rw [h] at hd; simp only [evalEnvOf] at hd
        cases htr : isTruthy cv
        · cases e with
          | some s' =>
            simp only [execFuel, h, htr, Bool.false_eq_true, if_false]
            exact (ih s' env1 out).trans hd
          | none => simpa [execFuel, h, htr, resEnvOf] using hd
        · simp only [execFuel, h, htr, if_true]
          exact (ih t env1 out).trans hd

/-- C3 (spec-modelled `visit_Block`): executing a block runs its statements
on a fresh child environment whose enclosing scope is the current
environment (`execBlockBody` on `Env.inner [] env`), yields exactly that
body's output and success/error status, and on both paths restores the
current environment to the enclosing scope of the body's final environment —
the prior environment as mutated by the block — so the chain length after
the block equals the chain length before it even when a runtime error
propagates out. -/
theorem block_scope_discipline :
    ∀ (fuel : Nat) (stmts : List (Option Stmt)) (env : Env) (out : List PyVal),
      resOutOf (execFuel (fuel + 1) (.Block stmts) env out) =
        resOutOf (execBlockBody fuel stmts (.inner [] env) out) ∧
      resIsOk (execFuel (fuel + 1) (.Block stmts) env out) =
        resIsOk (execBlockBody fuel stmts (.inner [] env) out) ∧
      (∃ vals' env',
        resEnvOf (execBlockBody fuel stmts (.inner [] env) out) =
          .inner vals' env' ∧
        resEnvOf (execFuel (fuel + 1) (.Block stmts) env out) = env' ∧
        env'.depth = env.depth) := by
  intro fuel stmts env out
  have hb := execFuel_block fuel stmts env out
  have hd := execBlockBody_depth_of fuel (fun s e o => exec_depth fuel s e o)
    stmts (.inner [] env) out
  cases h : execBlockBody fuel stmts (.inner [] env) out with
  | ok p =>
    obtain ⟨env1, out1⟩ := p
    rw [h] at hb hd; simp only [resEnvOf] at hd
    cases env1 with
    | top vals =>
      exfalso
      simp [Env.depth] at hd
      have := Env.depth_pos env
      omega
    | inner vals' e' =>
      simp [Env.depth] at hd
      refine ⟨by simp [hb, resOutOf], by simp [hb, resIsOk],
        vals', e', by simp [resEnvOf], by simp [hb, resEnvOf, popScope], by omega⟩
  | error pe =>
    obtain ⟨err, env1, out1⟩ := pe
    rw [h] at hb hd; simp only [resEnvOf] at hd
    cases env1 with
    | top vals =>
      exfalso
      simp [Env.depth] at hd
      have := Env.depth_pos env
      omega
    | inner vals' e' =>
      simp [Env.depth] at hd
      refine ⟨by simp [hb, resOutOf], by simp [hb, resIsOk],
        vals', e', by simp [resEnvOf], by simp [hb, resEnvOf, popScope], by omega⟩

end Plox
